import Mathlib

/-!
Verification of the gpu-video core: shallow embedding of the buffer pool,
the hardware-device cache, the per-backend decoder state machines and the
small numeric helpers, together with proofs of the stated properties.

Rust machine integers are modelled as `Nat`/`Int` (the code never relies on
wrap-around in the embedded fragments); `f64` computations in `seek` and the
rotation normalization are modelled as exact rational arithmetic with Rust's
round-half-away-from-zero; fallible code returns `Except`/`Option`, and code
paths that `panic!`/`unwrap` are modelled with an explicit panic outcome.
-/

set_option maxHeartbeats 1000000
set_option maxRecDepth 10000

namespace GpuVideo

/-! ## Buffer pool (src/buffer_pool.rs)

`FrameBuffer`, `BufKey`, the pool state and the operations `get`,
`PooledFrame::release`, `Drop for PooledFrame`, `PooledFrame::into_inner`.
A Rust `Vec` bucket is stored reversed, so that `Vec::push`/`Vec::pop`
(which act on the *end* of the vector) become `List.cons` / head-tail:
this preserves the LIFO discipline and the length exactly.
The factory object is instrumented by counting `create`/`free` calls in the
pool state; the buffers it produces are given by a function `mk`. -/

structure FrameBuffer (T P : Type) where
  width : Nat
  height : Nat
  stride : Nat
  format : P
  inner : T
deriving DecidableEq

/-- Key identifying a bucket of compatible frame buffers
(struct `BufKey` in src/buffer_pool.rs). -/
structure BufKey (P : Type) where
  width : Nat
  height : Nat
  stride : Nat
  format : P
deriving DecidableEq

/-- The shared pool state (`PoolInner`): per-key capacity and the bucket map.
The `HashMap<BufKey, Vec<FrameBuffer>>` is modelled as a total function with
default `[]` (`entry(..).or_default()` semantics).  `createCount`/`freeCount`
instrument the factory: they count `factory.create` and `factory.free` calls. -/
structure PoolState (T P : Type) where
  capacity_per_key : Nat
  buckets : BufKey P → List (FrameBuffer T P)
  createCount : Nat
  freeCount : Nat

/-- `BufferPool::new(capacity_per_key, factory)`: empty bucket map. -/
def PoolState.init (T P : Type) (capacity_per_key : Nat) : PoolState T P :=
  { capacity_per_key := capacity_per_key
    buckets := fun _ => []
    createCount := 0
    freeCount := 0 }

/-- Point update of the bucket map (`buckets.entry(key)` mutation). -/
def setBucket {T P : Type} [DecidableEq P]
    (buckets : BufKey P → List (FrameBuffer T P)) (k : BufKey P)
    (v : List (FrameBuffer T P)) : BufKey P → List (FrameBuffer T P) :=
  fun k2 => if k2 = k then v else buckets k2

/-- A pooled handle (`PooledFrame`): `pool: Option<Arc<PoolInner>>` is
modelled by the flag `has_pool` (in a single-pool development the `Arc`
always designates *the* pool under consideration), `buf` and
`return_on_drop` are as in the source. -/
structure PooledFrame (T P : Type) where
  has_pool : Bool
  key : BufKey P
  buf : Option (FrameBuffer T P)
  return_on_drop : Bool
deriving DecidableEq

section PoolOps

variable {T P : Type} [DecidableEq P]

/-- `BufferPool::get(width, height, stride, format)`: pop an idle buffer from
the bucket if present, otherwise call `factory.create` (modelled by `mk`,
with the call counted).  The returned handle has `return_on_drop = true`. -/
def BufferPool.get (mk : Nat → Nat → Nat → P → T) (st : PoolState T P)
    (width height stride : Nat) (format : P) :
    PooledFrame T P × PoolState T P :=
  let key : BufKey P := ⟨width, height, stride, format⟩
  match st.buckets key with
  | b :: rest =>
      (⟨true, key, some b, true⟩,
       { st with buckets := setBucket st.buckets key rest })
  | [] =>
      let buf : FrameBuffer T P :=
        ⟨width, height, stride, format, mk width height stride format⟩
      (⟨true, key, some buf, true⟩,
       { st with createCount := st.createCount + 1 })

/-- `PooledFrame::release(mut self)`: both `self.pool.take()` and
`self.buf.take()` run unconditionally, `return_on_drop` is cleared; when the
handle was live, the buffer is pushed back if `entry.len() < capacity_per_key`
and `factory.free`d otherwise.  Returns the emptied handle (on which Rust
still runs `Drop` when `release` returns) and the new pool state. -/
def PooledFrame.release (f : PooledFrame T P) (st : PoolState T P) :
    PooledFrame T P × PoolState T P :=
  let fEmpty : PooledFrame T P :=
    { f with has_pool := false, buf := none, return_on_drop := false }
  match f.has_pool, f.buf with
  | true, some buf =>
      let entry := st.buckets f.key
      if entry.length < st.capacity_per_key then
        (fEmpty, { st with buckets := setBucket st.buckets f.key (buf :: entry) })
      else
        (fEmpty, { st with freeCount := st.freeCount + 1 })
  | _, _ => (fEmpty, st)

/-- `impl Drop for PooledFrame`: same return-or-free policy, but only when
`return_on_drop` is still set and the handle is live. -/
def PooledFrame.dropFrame (f : PooledFrame T P) (st : PoolState T P) :
    PoolState T P :=
  if f.return_on_drop then
    match f.has_pool, f.buf with
    | true, some buf =>
        let entry := st.buckets f.key
        if entry.length < st.capacity_per_key then
          { st with buckets := setBucket st.buckets f.key (buf :: entry) }
        else
          { st with freeCount := st.freeCount + 1 }
    | _, _ => st
  else st

/-- `PooledFrame::into_inner(mut self)`: clears `return_on_drop`, takes the
buffer out (first component), leaves `pool` untouched. -/
def PooledFrame.into_inner (f : PooledFrame T P) :
    Option (FrameBuffer T P) × PooledFrame T P :=
  (f.buf, { f with return_on_drop := false, buf := none })

/-- One client-visible pool operation: request a buffer, or release / drop /
consume the `i`-th currently live handle. -/
inductive PoolOp (P : Type) where
  | get (width height stride : Nat) (format : P)
  | release (i : Nat)
  | drop (i : Nat)
  | intoInner (i : Nat)

/-- A pool together with the live handles handed out to clients. -/
structure PoolConfig (T P : Type) where
  pool : PoolState T P
  live : List (PooledFrame T P)

def PoolConfig.init (T P : Type) (capacity_per_key : Nat) : PoolConfig T P :=
  { pool := PoolState.init T P capacity_per_key, live := [] }

/-- Execute one operation.  `release` consumes the handle and Rust then runs
`Drop` on the emptied handle; `intoInner` takes the buffer out and the empty
handle is eventually dropped.  Operations naming a non-existent handle are
no-ops. -/
def PoolConfig.step (mk : Nat → Nat → Nat → P → T) (cfg : PoolConfig T P) :
    PoolOp P → PoolConfig T P
  | .get w h s fmt =>
      let r := BufferPool.get mk cfg.pool w h s fmt
      { pool := r.2, live := r.1 :: cfg.live }
  | .release i =>
      match cfg.live[i]? with
      | some f =>
          let r := f.release cfg.pool
          { pool := r.1.dropFrame r.2, live := cfg.live.eraseIdx i }
      | none => cfg
  | .drop i =>
      match cfg.live[i]? with
      | some f => { pool := f.dropFrame cfg.pool, live := cfg.live.eraseIdx i }
      | none => cfg
  | .intoInner i =>
      match cfg.live[i]? with
      | some f =>
          { pool := (f.into_inner).2.dropFrame cfg.pool
            live := cfg.live.eraseIdx i }
      | none => cfg

def PoolConfig.runOps (mk : Nat → Nat → Nat → P → T) (cfg : PoolConfig T P)
    (ops : List (PoolOp P)) : PoolConfig T P :=
  ops.foldl (PoolConfig.step mk) cfg

end PoolOps

/-! ## Panic-aware factory and `get` (src/decoder/braw.rs, src/buffer_pool.rs)

The `BufferFactory` trait's `create` returns a plain `FrameBuffer` (no
`Result`), and `BrawResourceFactory::create` calls
`resmgr.create_resource(..).unwrap()` and then `panic!`s on a null pointer
(both sites carry `// TODO: result` comments).  A computation that may panic
is modelled by `PanicOr`. -/

inductive PanicOr (α : Type) where
  | ok (a : α)
  | panic (msg : String)
deriving DecidableEq

/-- `BrawTypeAndFormat` (src/decoder/braw.rs): the `BlackmagicRawResourceType`
and `BlackmagicRawResourceFormat` enums are modelled by their discriminants. -/
structure BrawTypeAndFormat where
  kind : Nat
  pixel_format : Nat
  size_bytes : Option Nat
deriving DecidableEq

/-- `BrawRawResource` (src/decoder/braw.rs): the engine resource-manager
handle is external and omitted; `context`/`queue` are raw pointers modelled
as optional addresses, `data` as an address. -/
structure BrawRawResource where
  kind : Nat
  context : Option Nat
  queue : Option Nat
  data : Nat
  size : Nat
deriving DecidableEq

/-- `BrawResourceFactory::create`: the outcome of the external
`resmgr.create_resource` call is the parameter `create_resource`
(`Ok` with the returned pointer, or `Err`).  `.unwrap()` on an `Err`
panics, and a null (`0`) pointer triggers the explicit
`panic!("Failed to create BRAW resource buffer")`. -/
def BrawResourceFactory.create (create_resource : Except String Nat)
    (context queue : Option Nat)
    (width height stride : Nat) (format : BrawTypeAndFormat) :
    PanicOr (FrameBuffer BrawRawResource BrawTypeAndFormat) :=
  match create_resource with
  | .error _ => .panic "called Result::unwrap() on an Err value"
  | .ok img =>
      if img = 0 then .panic "Failed to create BRAW resource buffer"
      else .ok ⟨width, height, stride, format,
        ⟨format.kind, context, queue, img, format.size_bytes.getD 0⟩⟩

/-- `BufferPool::get` where the factory's `create` may panic (as with
`BrawResourceFactory`): the panic propagates out of `get` — `get`'s return
type (`PooledFrame`, not `Result`) has no error channel. -/
def BufferPool.getWith {T P : Type} [DecidableEq P]
    (create : Nat → Nat → Nat → P → PanicOr (FrameBuffer T P))
    (st : PoolState T P) (width height stride : Nat) (format : P) :
    PanicOr (PooledFrame T P × PoolState T P) :=
  let key : BufKey P := ⟨width, height, stride, format⟩
  match st.buckets key with
  | b :: rest =>
      .ok (⟨true, key, some b, true⟩,
        { st with buckets := setBucket st.buckets key rest })
  | [] =>
      match create width height stride format with
      | .panic m => .panic m
      | .ok buf =>
          .ok (⟨true, key, some buf, true⟩,
            { st with createCount := st.createCount + 1 })

/-! ## Index-addressable decoders: BRAW and R3D cursor state
(src/decoder/braw.rs, src/decoder/r3d.rs)

Both `seek` implementations compute
`((timestamp_us as f64 * frame_rate / 1_000_000.0).round() as i64)
   .min(frame_count as i64 - 1).max(0) as u64`.
`f64` arithmetic is modelled as exact rational arithmetic; Rust's
`f64::round` rounds half away from zero. -/

/-- Rust `f64::round`: round half away from zero. -/
def rustRound (x : ℚ) : ℤ :=
  if 0 ≤ x then ⌊x + 1 / 2⌋ else ⌈x - 1 / 2⌉

/-- The common seek target: `round(ts * rate / 1e6).min(frame_count-1).max(0)`. -/
def seekTargetFrame (frame_rate : ℚ) (frame_count : ℕ) (timestamp_us : ℤ) : ℤ :=
  max (min (rustRound ((timestamp_us : ℚ) * frame_rate / 1000000))
        ((frame_count : ℤ) - 1)) 0

/-- The cursor-relevant fields of `BrawDecoder` (src/decoder/braw.rs). -/
structure BrawDecoderState where
  frame_rate : ℚ
  frame_count : ℕ
  current_frame : ℕ

/-- `BrawDecoder::seek`: reset the cursor, return `Ok(true)`. -/
def BrawDecoderState.seek (st : BrawDecoderState) (timestamp_us : ℤ) :
    BrawDecoderState × Bool :=
  ({ st with current_frame :=
      (seekTargetFrame st.frame_rate st.frame_count timestamp_us).toNat }, true)

/-- `BrawDecoder::next_frame`: `Ok(None)` once `current_frame >= frame_count`;
otherwise decode frame `current_frame` (the external engine read/decode is
abstracted to the produced frame index) and advance the cursor. -/
def BrawDecoderState.nextFrame (st : BrawDecoderState) :
    BrawDecoderState × Option ℕ :=
  if st.frame_count ≤ st.current_frame then (st, none)
  else ({ st with current_frame := st.current_frame + 1 }, some st.current_frame)

/-- The cursor-relevant fields of `R3dDecoder` (src/decoder/r3d.rs). -/
structure R3dDecoderState where
  frame_rate : ℚ
  frame_count : ℕ
  current_frame : ℕ

/-- `R3dDecoder::seek`: textually the same computation as BRAW's. -/
def R3dDecoderState.seek (st : R3dDecoderState) (timestamp_us : ℤ) :
    R3dDecoderState × Bool :=
  ({ st with current_frame :=
      (seekTargetFrame st.frame_rate st.frame_count timestamp_us).toNat }, true)

/-- `R3dDecoder::next_frame`: `Ok(None)` once `current_frame >= frame_count`,
otherwise submit a decode job for frame `current_frame` and advance. -/
def R3dDecoderState.nextFrame (st : R3dDecoderState) :
    R3dDecoderState × Option ℕ :=
  if st.frame_count ≤ st.current_frame then (st, none)
  else ({ st with current_frame := st.current_frame + 1 }, some st.current_frame)

/-! ## Custom-option parsing (src/util.rs, src/decoder/braw.rs, src/decoder/r3d.rs) -/

/-- Rust `str::to_ascii_lowercase` (Lean's `Char.toLower` lowers exactly
ASCII `A`..`Z`, matching the Rust method).  Implemented on the character
list so that it evaluates by kernel reduction. -/
def asciiLowercase (s : String) : String := String.mk (s.data.map Char.toLower)

/-- Rust `str::trim`: strip leading and trailing whitespace. -/
def trimAscii (s : String) : String :=
  String.mk
    (((s.data.dropWhile Char.isWhitespace).reverse.dropWhile
        Char.isWhitespace).reverse)

/-- `select_custom_option` (src/util.rs): first key present in the map wins.
The `HashMap<String, String>` is modelled as an association list. -/
def select_custom_option (options : List (String × String))
    (keys : List String) : Option String :=
  keys.findSome? fun key => (options.lookup key)

/-- `BlackmagicRawResolutionScale` (external enum, variants used by the code). -/
inductive BlackmagicRawResolutionScale where
  | Full | Half | Quarter | Eighth
deriving DecidableEq

/-- `parse_resolution_scale` (src/decoder/braw.rs): note it stops after
`eighth`/`1/8` — there is no `sixteenth`/`1/16` arm. -/
def parse_resolution_scale (value : String) :
    Option BlackmagicRawResolutionScale :=
  match trimAscii (asciiLowercase value) with
  | "full" | "1" => some .Full
  | "half" | "1/2" => some .Half
  | "quarter" | "1/4" => some .Quarter
  | "eighth" | "1/8" => some .Eighth
  | _ => none

/-- `VideoDecodeMode` (external R3D enum, variants used by the code). -/
inductive VideoDecodeMode where
  | FullResPremium | HalfResPremium | HalfResGood
  | QuarterResGood | EightResGood | SixteenthResGood
deriving DecidableEq

/-- `parse_decode_mode` (src/decoder/r3d.rs). -/
def parse_decode_mode (value : String) : Option VideoDecodeMode :=
  match trimAscii (asciiLowercase value) with
  | "full" | "1" => some .FullResPremium
  | "half" => some .HalfResPremium
  | "half_good" | "1/2" => some .HalfResGood
  | "quarter" | "1/4" => some .QuarterResGood
  | "eighth" | "1/8" => some .EightResGood
  | "sixteenth" | "1/16" => some .SixteenthResGood
  | _ => none

/-- The `resolution_scale` selection in `BrawDecoder::new`
(src/decoder/braw.rs): unknown values are logged and ignored (`None`,
i.e. the default), and `new` proceeds to `Ok(..)` regardless. -/
def brawResolutionScale (custom_options : List (String × String)) :
    Option BlackmagicRawResolutionScale :=
  match select_custom_option custom_options
      ["braw.decode_resolution", "decode_resolution"] with
  | some value =>
      match parse_resolution_scale value with
      | some scale => some scale
      | none => none
  | none => none

/-- The `mode` selection in `R3dDecoder::new` (src/decoder/r3d.rs): the
default is `FullResPremium`; an unknown value is logged and the default kept. -/
def r3dDecodeMode (custom_options : List (String × String)) : VideoDecodeMode :=
  match select_custom_option custom_options
      ["r3d.decode_resolution", "decode_resolution"] with
  | some value =>
      match parse_decode_mode value with
      | some selected => selected
      | none => .FullResPremium
  | none => .FullResPremium

/-! ## Container backend: `FfmpegDecoder::next_frame` (src/decoder/ffmpeg.rs)

The external codec engine is opaque: a packet carries the list of frames the
engine will eventually output for it, an opened decoder holds the frames it
has accepted but not yet delivered (`receive_frame` pops one; it fails when
none is pending).  `Packet::empty()` has `stream_index == 0` (zero-initialized
`AVPacket`), so on the empty packet the code indexes `stream_state[0]`.
The recursive retry (`return self.next_frame()`) is given explicit fuel;
the theorems only use states the recursion leaves within the fuel. -/

/-- Stream medium (`media::Type`), reduced to the arms the code matches. -/
inductive FfMedium where
  | video | audio | other
deriving DecidableEq

structure FfPacket where
  stream_index : Nat
  /-- Frames the opaque engine will output for this packet. -/
  frames : List Nat
deriving DecidableEq

/-- An opened per-stream decode context: the engine frames accepted and not
yet delivered. -/
structure FfOpenedDecoder where
  pending : List Nat
deriving DecidableEq

/-- Per-stream state (`StreamInfo`): the `decode` flag from `Stream`, the
medium, and the lazily opened decoder. -/
structure FfStreamState where
  decode : Bool
  medium : FfMedium
  decoder : Option FfOpenedDecoder
deriving DecidableEq

/-- A delivered frame value (`Frame::Video` / `Frame::Audio` / `Frame::Other`). -/
inductive FfFrameOut where
  | video (id : Nat) | audio (id : Nat) | other
deriving DecidableEq

/-- Outcome of `next_frame`: `Ok(Some _)` / `Ok(None)` / a Rust panic. -/
inductive FfResult where
  | ok (f : Option FfFrameOut)
  | panic (msg : String)
deriving DecidableEq

/-- `FfmpegDecoder` state: remaining demuxer packets, the `packets_ended`
flag, `current_packet` (`none` models `Packet::empty()`), and the stream
table. -/
structure FfmpegDecoderState where
  packets : List FfPacket
  packets_ended : Bool
  current_packet : Option FfPacket
  streams : List FfStreamState
deriving DecidableEq

/-- `FfmpegDecoder::next_frame` (src/decoder/ffmpeg.rs lines 95-186).
Control flow, in source order: fetch a packet when the current one is empty
and packets have not ended (end of stream sets `packets_ended` and flushes
the engines); wrap the current packet's stream index and index
`self.stream_state[idx]` — a Rust panic when the index is out of bounds —
lazily open the stream's decoder; send the packet and try `receive_frame`;
on failure clear the packet and either return `Ok(None)` (packets ended) or
recurse. -/
def FfmpegDecoderState.nextFrame :
    Nat → FfmpegDecoderState → FfmpegDecoderState × FfResult
  | 0, st => (st, .panic "recursion limit")
  | fuel + 1, st =>
    let fetchNew := st.current_packet.isNone
    let st1 :=
      if fetchNew ∧ ¬st.packets_ended then
        match st.packets with
        | p :: rest => { st with packets := rest, current_packet := some p }
        | [] => { st with packets_ended := true }
      else st
    let idx := (st1.current_packet.map FfPacket.stream_index).getD 0
    match st1.streams[idx]? with
    | none =>
        (st1, .panic "index out of bounds")
    | some s0 =>
      let s1 :=
        if s0.decode ∧ s0.decoder.isNone then
          { s0 with decoder :=
              match s0.medium with
              | .video => some ⟨[]⟩
              | .audio => some ⟨[]⟩
              | .other => none }
        else s0
      let st2 := { st1 with streams := st1.streams.set idx s1 }
      match s1.decoder with
      | some dec =>
        let dec1 :=
          if fetchNew ∧ ¬st2.packets_ended then
            match st2.current_packet with
            | some p => FfOpenedDecoder.mk (dec.pending ++ p.frames)
            | none => dec
          else dec
        match dec1.pending with
        | f :: rest =>
            let s2 := { s1 with decoder := some (FfOpenedDecoder.mk rest) }
            let st3 := { st2 with streams := st2.streams.set idx s2 }
            (st3, .ok (some (match s1.medium with
              | .video => .video f
              | .audio => .audio f
              | .other => .other)))
        | [] =>
            let s2 := { s1 with decoder := some dec1 }
            let st3 := { st2 with
              streams := st2.streams.set idx s2
              current_packet := none }
            if st3.packets_ended then (st3, .ok none)
            else st3.nextFrame fuel
      | none =>
          let st3 := { st2 with current_packet := none }
          if st3.packets_ended then (st3, .ok none)
          else (st3, .ok (some .other))

/-- The rotation normalization in `FfmpegDecoder::get_video_info`
(src/decoder/ffmpeg.rs line 75):
`theta -= 360.0 * (theta / 360.0 + 0.9 / 360.0).floor()`, with the `f64`
arithmetic modelled exactly over ℚ. -/
def normalizeRotation (theta : ℚ) : ℚ :=
  theta - 360 * ⌊theta / 360 + (9 / 10) / 360⌋

/-! ## Hardware device cache (src/support/ffmpeg_hw.rs)

`DEVICES: Mutex<HashMap<u64, HWDevice>>` keyed by
`device_type as u64 + crc32(device_name)`; `crc32fast` computes the standard
reflected CRC-32 (polynomial `0xEDB88320`, initial value and final xor
`0xFFFFFFFF`). -/

/-- One round of the reflected CRC-32: shift right, conditionally xor the
polynomial. -/
def crc32Step (crc : Nat) : Nat :=
  if crc % 2 = 1 then (crc / 2) ^^^ 0xEDB88320 else crc / 2

/-- CRC-32 of a byte sequence (`crc32fast::Hasher::update` + `finalize`). -/
def crc32Bytes (bytes : List Nat) : Nat :=
  (bytes.foldl (fun crc b => crc32Step^[8] (crc ^^^ b)) 0xFFFFFFFF) ^^^ 0xFFFFFFFF

/-- CRC-32 of a string's bytes.  Device names are ASCII, where the UTF-8
bytes are the code points. -/
def crc32String (s : String) : Nat :=
  crc32Bytes (s.data.map Char.toNat)

/-- `device_hash` as computed in `init_device_for_decoding`: `0` when no
name is given, `crc32(name)` otherwise (so the empty string also yields 0). -/
def deviceHash (device : Option String) : Nat :=
  match device with
  | some dev_name => crc32String dev_name
  | none => 0

/-- The cache key `type_ as u64 + device_hash` (u64 addition; the values in
play — a small enum discriminant plus a 32-bit hash — cannot overflow). -/
def cacheKey (type_ : Nat) (device : Option String) : Nat :=
  type_ + deviceHash device

/-- A cached `HWDevice`, reduced to its identity fields. -/
structure HWDevice where
  type_ : Nat
  device_name : Option String
deriving DecidableEq

/-- The `DEVICES` map, modelled as a total function to `Option`. -/
def DevicesMap : Type := Nat → Option HWDevice

def DevicesMap.empty : DevicesMap := fun _ => none

/-- The cache access at the heart of `init_device_for_decoding`
(src/support/ffmpeg_hw.rs lines 128-143): on a vacant entry, attempt the
native creation (`HWDevice::from_type`, whose success is the parameter
`createOk`) and insert on success; then read the entry.  Returns the new
map, the entry found, and whether a native creation was attempted. -/
def DevicesMap.lookupOrCreate (devices : DevicesMap) (type_ : Nat)
    (device : Option String) (createOk : Bool) :
    DevicesMap × Option HWDevice × Bool :=
  let key := cacheKey type_ device
  match devices key with
  | some dev => (devices, some dev, false)
  | none =>
      if createOk then
        let dev : HWDevice := ⟨type_, device⟩
        let devices2 : DevicesMap := fun k => if k = key then some dev else devices k
        (devices2, some dev, true)
      else (devices, none, true)

/-! ## `Rational` (src/types.rs)

`pub struct Rational(pub i32, pub i32)` with
`invert(&self) -> Self { Self(self.1, self.0) }` and
`as_f32(&self) -> f32 { self.1 as f32 / self.0 as f32 }`.
The `f32` division is modelled as exact rational division (ℚ's division by
zero yields 0; the embedded theorems never divide by zero at their use
sites).  Every construction site stores the numerator first:
`Rational(rate.0, rate.1)` etc. in `FfmpegDecoder::new`
(src/decoder/ffmpeg.rs lines 241-243), `Rational((fps * 1000.0) as i32, 1000)`
in the BRAW/R3D backends. -/

structure Rational where
  num : Int
  den : Int
deriving DecidableEq

def Rational.invert (r : Rational) : Rational := ⟨r.den, r.num⟩

/-- `as_f32`: `self.1 as f32 / self.0 as f32` — the second component divided
by the first. -/
def Rational.as_f32 (r : Rational) : ℚ := (r.den : ℚ) / (r.num : ℚ)

/-- The mathematical value `n/d` of a `Rational` as stored numerator-first. -/
def Rational.value (r : Rational) : ℚ := (r.num : ℚ) / (r.den : ℚ)

/-- A stream's `rate` as built in `FfmpegDecoder::new`:
`Rational(rate.0, rate.1)` — numerator first. -/
def streamRate (n d : Int) : Rational := ⟨n, d⟩

/-! # Theorems -/

/-! Helper lemmas for the bucket-capacity invariant. -/

theorem setBucket_length_le {T P : Type} [DecidableEq P] {c : Nat}
    (buckets : BufKey P → List (FrameBuffer T P)) (k : BufKey P)
    (v : List (FrameBuffer T P)) (hv : v.length ≤ c)
    (hb : ∀ k2, (buckets k2).length ≤ c) :
    ∀ k2, ((setBucket buckets k v) k2).length ≤ c := by
  intro k2
  unfold setBucket
  by_cases h : k2 = k
  · simpa [h] using hv
  · simpa [h] using hb k2

theorem get_bound {T P : Type} [DecidableEq P] {c : Nat}
    (mk : Nat → Nat → Nat → P → T) (st : PoolState T P)
    (w h s : Nat) (fmt : P)
    (hcap : st.capacity_per_key = c)
    (hb : ∀ k, (st.buckets k).length ≤ c) :
    ((BufferPool.get mk st w h s fmt).2.capacity_per_key = c)
    ∧ ∀ k, (((BufferPool.get mk st w h s fmt).2).buckets k).length ≤ c := by
  unfold BufferPool.get
  cases hcase : st.buckets ⟨w, h, s, fmt⟩ with
  | nil => simp only [hcase]; exact ⟨hcap, hb⟩
  | cons b rest =>
      simp only [hcase]
      refine ⟨hcap, ?_⟩
      apply setBucket_length_le
      · have hlen := hb ⟨w, h, s, fmt⟩
        rw [hcase] at hlen
        exact Nat.le_of_succ_le hlen
      · exact hb

theorem release_bound {T P : Type} [DecidableEq P] {c : Nat}
    (f : PooledFrame T P) (st : PoolState T P)
    (hcap : st.capacity_per_key = c)
    (hb : ∀ k, (st.buckets k).length ≤ c) :
    ((f.release st).2.capacity_per_key = c)
    ∧ ∀ k, (((f.release st).2).buckets k).length ≤ c := by
  rcases f with ⟨hp, key, buf, rod⟩
  cases hp <;> cases buf <;> unfold PooledFrame.release <;> simp only
  · exact ⟨hcap, hb⟩
  · exact ⟨hcap, hb⟩
  · exact ⟨hcap, hb⟩
  · split
    · rename_i hlt
      refine ⟨hcap, ?_⟩
      apply setBucket_length_le
      · simp only [List.length_cons]
        rw [hcap] at hlt
        omega
      · exact hb
    · exact ⟨hcap, hb⟩

theorem dropFrame_bound {T P : Type} [DecidableEq P] {c : Nat}
    (f : PooledFrame T P) (st : PoolState T P)
    (hcap : st.capacity_per_key = c)
    (hb : ∀ k, (st.buckets k).length ≤ c) :
    ((f.dropFrame st).capacity_per_key = c)
    ∧ ∀ k, ((f.dropFrame st).buckets k).length ≤ c := by
  rcases f with ⟨hp, key, buf, rod⟩
  unfold PooledFrame.dropFrame
  cases rod
  · simp only [Bool.false_eq_true, if_false]
    exact ⟨hcap, hb⟩
  · simp only [if_true]
    cases hp <;> cases buf <;> simp only
    · exact ⟨hcap, hb⟩
    · exact ⟨hcap, hb⟩
    · exact ⟨hcap, hb⟩
    · split
      · rename_i hlt
        refine ⟨hcap, ?_⟩
        apply setBucket_length_le
        · simp only [List.length_cons]
          rw [hcap] at hlt
          omega
        · exact hb
      · exact ⟨hcap, hb⟩

theorem step_bound {T P : Type} [DecidableEq P] {c : Nat}
    (mk : Nat → Nat → Nat → P → T) (cfg : PoolConfig T P) (op : PoolOp P)
    (hcap : cfg.pool.capacity_per_key = c)
    (hb : ∀ k, (cfg.pool.buckets k).length ≤ c) :
    ((cfg.step mk op).pool.capacity_per_key = c)
    ∧ ∀ k, (((cfg.step mk op).pool).buckets k).length ≤ c := by
  cases op with
  | get w h s fmt =>
      exact get_bound mk cfg.pool w h s fmt hcap hb
  | release i =>
      simp only [PoolConfig.step]
      cases hi : cfg.live[i]? with
      | none => exact ⟨hcap, hb⟩
      | some f =>
          obtain ⟨h1, h2⟩ := release_bound f cfg.pool hcap hb
          exact dropFrame_bound _ _ h1 h2
  | drop i =>
      simp only [PoolConfig.step]
      cases hi : cfg.live[i]? with
      | none => exact ⟨hcap, hb⟩
      | some f =>
          exact dropFrame_bound f cfg.pool hcap hb
  | intoInner i =>
      simp only [PoolConfig.step]
      cases hi : cfg.live[i]? with
      | none => exact ⟨hcap, hb⟩
      | some f =>
          exact dropFrame_bound _ cfg.pool hcap hb

theorem runOps_bound {T P : Type} [DecidableEq P] {c : Nat}
    (mk : Nat → Nat → Nat → P → T) (ops : List (PoolOp P))
    (cfg : PoolConfig T P)
    (hcap : cfg.pool.capacity_per_key = c)
    (hb : ∀ k, (cfg.pool.buckets k).length ≤ c) :
    ((cfg.runOps mk ops).pool.capacity_per_key = c)
    ∧ ∀ k, (((cfg.runOps mk ops).pool).buckets k).length ≤ c := by
  induction ops generalizing cfg with
  | nil => exact ⟨hcap, hb⟩
  | cons op rest ih =>
      obtain ⟨h1, h2⟩ := step_bound mk cfg op hcap hb
      exact ih (cfg.step mk op) h1 h2

/-- Claim C1: releasing or dropping a live `PooledFrame` pushes its buffer
into the bucket for its key exactly when that bucket currently holds fewer
than `capacity_per_key` idle entries, and calls `factory.free` otherwise;
consequently, for every sequence of get/release/drop/into-inner operations
on a pool created with per-key capacity `c`, no bucket ever holds more than
`c` idle entries. -/
theorem buffer_pool_capacity_invariant {T P : Type} [DecidableEq P]
    (mk : Nat → Nat → Nat → P → T) :
    (∀ (c : Nat) (ops : List (PoolOp P)) (k : BufKey P),
        ((((PoolConfig.init T P c).runOps mk ops).pool).buckets k).length ≤ c)
  ∧ (∀ (st : PoolState T P) (key : BufKey P) (b : FrameBuffer T P) (rod : Bool),
        ((PooledFrame.mk true key (some b) rod).release st).2 =
          if (st.buckets key).length < st.capacity_per_key then
            { st with buckets := setBucket st.buckets key (b :: st.buckets key) }
          else { st with freeCount := st.freeCount + 1 })
  ∧ (∀ (st : PoolState T P) (key : BufKey P) (b : FrameBuffer T P),
        (PooledFrame.mk true key (some b) true).dropFrame st =
          if (st.buckets key).length < st.capacity_per_key then
            { st with buckets := setBucket st.buckets key (b :: st.buckets key) }
          else { st with freeCount := st.freeCount + 1 }) := by
  refine ⟨?_, ?_, ?_⟩
  · intro c ops k
    exact (runOps_bound mk ops (PoolConfig.init T P c) rfl
      (fun _ => Nat.zero_le c)).2 k
  · intro st key b rod
    by_cases hcond : (st.buckets key).length < st.capacity_per_key <;>
      simp [PooledFrame.release, hcond]
  · intro st key b
    by_cases hcond : (st.buckets key).length < st.capacity_per_key <;>
      simp [PooledFrame.dropFrame, hcond]

/-- Claim C5: on a cold pool with per-key capacity at least 1, `get` with
key K invokes `factory.create` once; after releasing the returned handle,
a second `get` with the same key K hands the released buffer back to the
caller without a second `factory.create`. -/
theorem buffer_pool_roundtrip_reuse {T P : Type} [DecidableEq P]
    (mk : Nat → Nat → Nat → P → T) (c : Nat) (hc : 1 ≤ c)
    (w h s : Nat) (fmt : P) :
    (((PoolConfig.init T P c).runOps mk
        [PoolOp.get w h s fmt, PoolOp.release 0, PoolOp.get w h s fmt]).pool.createCount
      = 1)
  ∧ (((PoolConfig.init T P c).runOps mk
        [PoolOp.get w h s fmt, PoolOp.release 0, PoolOp.get w h s fmt]).live
      = [PooledFrame.mk true (BufKey.mk w h s fmt)
          (some (FrameBuffer.mk w h s fmt (mk w h s fmt))) true]) := by
  have hc0 : 0 < c := hc
  simp [PoolConfig.runOps, PoolConfig.init, PoolConfig.step, BufferPool.get,
    PooledFrame.release, PooledFrame.dropFrame, PoolState.init, setBucket, hc0]

/-- Claim C5 witness: capacity 1, a concrete key, a trivial factory. -/
theorem buffer_pool_roundtrip_reuse_witness :
    1 ≤ 1
  ∧ ((((PoolConfig.init Nat Nat 1).runOps (fun _ _ _ _ => (0 : Nat))
        [PoolOp.get 64 32 256 7, PoolOp.release 0, PoolOp.get 64 32 256 7]).pool.createCount
      = 1)
    ∧ (((PoolConfig.init Nat Nat 1).runOps (fun _ _ _ _ => (0 : Nat))
        [PoolOp.get 64 32 256 7, PoolOp.release 0, PoolOp.get 64 32 256 7]).live
      = [PooledFrame.mk true (BufKey.mk 64 32 256 7)
          (some (FrameBuffer.mk 64 32 256 7 0)) true])) :=
  ⟨Nat.le_refl 1,
    buffer_pool_roundtrip_reuse (fun _ _ _ _ => (0 : Nat)) 1
      (Nat.le_refl 1) 64 32 256 7⟩

/-- Claim C6: a `PooledFrame` whose buffer was consumed via `into_inner`, or
returned via `release`, is left with `return_on_drop` cleared (and, for
`release`, with `pool` and `buf` taken), so the subsequent `Drop` neither
pushes a buffer into any bucket nor calls `factory.free`: the pool state —
buckets and the free counter alike — is unchanged by that drop. -/
theorem pooled_frame_consumed_drop_noop {T P : Type} [DecidableEq P] :
    (∀ (f : PooledFrame T P) (st : PoolState T P),
      (f.into_inner).2.dropFrame st = st)
  ∧ (∀ (f : PooledFrame T P) (st st2 : PoolState T P),
      ((f.release st).1).dropFrame st2 = st2) := by
  constructor
  · intro f st
    rfl
  · intro f st st2
    rcases f with ⟨hp, key, buf, rod⟩
    cases hp <;> cases buf <;>
      simp [PooledFrame.release, PooledFrame.dropFrame, apply_ite]

/-- Claim C3 (code bug): when the bucket is empty and the factory's creation
fails, `BufferPool::get` does not surface an error — `BrawResourceFactory::create`
panics, both on an `Err` from the engine (`.unwrap()`) and on a null
resource pointer (`panic!("Failed to create BRAW resource buffer")`), and the
`BufferFactory` trait gives `create` no error channel at all (the
`// TODO: result` comments in the source mark the unimplemented intent). -/
theorem braw_factory_failure_panics_in_get :
    BufferPool.getWith (BrawResourceFactory.create (.ok 0) none none)
        (PoolState.init BrawRawResource BrawTypeAndFormat 4) 1920 1080 0
        ⟨1, 2, some 1024⟩
      = .panic "Failed to create BRAW resource buffer"
  ∧ BufferPool.getWith (BrawResourceFactory.create (.error "engine failure") none none)
        (PoolState.init BrawRawResource BrawTypeAndFormat 4) 1920 1080 0
        ⟨1, 2, some 1024⟩
      = .panic "called Result::unwrap() on an Err value" :=
  ⟨rfl, rfl⟩

/-- Claim C9 counterexample: the normalization
`theta -= 360 * floor(theta/360 + 0.9/360)` maps `-90` to `270`, which is
not in `[-180, 180)`; the rotation is therefore not normalized to that
interval. -/
theorem rotation_escapes_symmetric_range :
    normalizeRotation (-90) = 270 ∧ ¬ normalizeRotation (-90) < 180 := by
  have h : normalizeRotation (-90) = 270 := by
    norm_num [normalizeRotation]
  constructor
  · exact h
  · rw [h]; norm_num

/-- Claim C9 as amended: the value produced by the normalization
`theta -= 360 * floor(theta/360 + 0.9/360)` lies in `[-0.9, 360 - 0.9)` —
essentially `[0, 360)` with a 0.9-degree grace band — not in `[-180, 180)`. -/
theorem rotation_normalized_range (theta : ℚ) :
    -(9/10) ≤ normalizeRotation theta
  ∧ normalizeRotation theta < 360 - 9/10 := by
  have h1 := Int.floor_le (theta / 360 + (9/10) / 360)
  have h2 := Int.lt_floor_add_one (theta / 360 + (9/10) / 360)
  unfold normalizeRotation
  constructor <;> linarith

/-- Claim C10: `Rational::as_f32` returns `self.1 / self.0` — the reciprocal
of the value `n/d` stored numerator-first at every construction site (e.g.
`Rational(rate.0, rate.1)` for a stream's `rate` in `FfmpegDecoder::new`) —
so `as_f32` on a frame rate yields seconds-per-frame, while `invert()` swaps
the two components. -/
theorem rational_as_f32_reciprocal (r : Rational) :
    r.as_f32 = r.value⁻¹
  ∧ r.invert.num = r.den ∧ r.invert.den = r.num
  ∧ r.as_f32 = r.invert.value
  ∧ ∀ n d : Int, (streamRate n d).as_f32 = ((n : ℚ) / (d : ℚ))⁻¹ := by
  refine ⟨?_, rfl, rfl, rfl, ?_⟩
  · rw [Rational.as_f32, Rational.value, inv_div]
  · intro n d
    rw [Rational.as_f32, inv_div]
    rfl

/-- Claim C7 (code bug): on a container input with zero streams, once the
packet source is exhausted (`packets_ended`, trivially drained engines),
`next_frame` does not return `Ok(None)`: it indexes
`self.stream_state[0]` through the empty `Packet::empty()` (whose
`stream_index` is 0) and panics with an index-out-of-bounds, on the very
first call as well as on every later one — contradicting the specified
no-panic `Ok(None)` behavior. -/
theorem ffmpeg_next_frame_zero_streams_panics :
    (FfmpegDecoderState.nextFrame 1 ⟨[], true, none, []⟩).2
      = .panic "index out of bounds"
  ∧ (FfmpegDecoderState.nextFrame 1 ⟨[], false, none, []⟩).2
      = .panic "index out of bounds"
  ∧ (FfmpegDecoderState.nextFrame 1 ⟨[], false, none, []⟩).1.packets_ended
      = true := by
  refine ⟨rfl, rfl, rfl⟩

/-- Claim C8 counterexample: the BRAW backend accepts the
decode-resolution-scale custom option (keys `braw.decode_resolution` /
`decode_resolution`), yet `parse_resolution_scale` does not recognize
`sixteenth` or `1/16` — those tokens fall through to the
ignored-with-warning path and leave the scale at its default. -/
theorem braw_scale_sixteenth_unrecognized :
    parse_resolution_scale "sixteenth" = none
  ∧ parse_resolution_scale "1/16" = none
  ∧ brawResolutionScale [("decode_resolution", "sixteenth")] = none := by
  decide

/-- Claim C8 as amended: the R3D backend recognizes (case-insensitively,
after trimming) `full|half|half_good|quarter|eighth|sixteenth` and
`1|1/2|1/4|1/8|1/16`; the BRAW backend recognizes only
`full|half|quarter|eighth` and `1|1/2|1/4|1/8` — `sixteenth`/`1/16` are not
recognized there; any unrecognized value is ignored (logged) and the open
call proceeds with the default scale. -/
theorem decode_resolution_tokens :
    parse_resolution_scale "full" = some .Full
  ∧ parse_resolution_scale "1" = some .Full
  ∧ parse_resolution_scale "half" = some .Half
  ∧ parse_resolution_scale "1/2" = some .Half
  ∧ parse_resolution_scale "quarter" = some .Quarter
  ∧ parse_resolution_scale "1/4" = some .Quarter
  ∧ parse_resolution_scale "eighth" = some .Eighth
  ∧ parse_resolution_scale "1/8" = some .Eighth
  ∧ parse_resolution_scale "FULL" = some .Full
  ∧ parse_resolution_scale " Half " = some .Half
  ∧ parse_resolution_scale "sixteenth" = none
  ∧ parse_resolution_scale "1/16" = none
  ∧ parse_decode_mode "full" = some .FullResPremium
  ∧ parse_decode_mode "1" = some .FullResPremium
  ∧ parse_decode_mode "half" = some .HalfResPremium
  ∧ parse_decode_mode "half_good" = some .HalfResGood
  ∧ parse_decode_mode "1/2" = some .HalfResGood
  ∧ parse_decode_mode "quarter" = some .QuarterResGood
  ∧ parse_decode_mode "1/4" = some .QuarterResGood
  ∧ parse_decode_mode "eighth" = some .EightResGood
  ∧ parse_decode_mode "1/8" = some .EightResGood
  ∧ parse_decode_mode "sixteenth" = some .SixteenthResGood
  ∧ parse_decode_mode "1/16" = some .SixteenthResGood
  ∧ parse_decode_mode "SIXTEENTH" = some .SixteenthResGood
  ∧ brawResolutionScale [("decode_resolution", "bogus")] = none
  ∧ r3dDecodeMode [("decode_resolution", "bogus")] = .FullResPremium
  ∧ r3dDecodeMode [("r3d.decode_resolution", "1/16")] = .SixteenthResGood
  ∧ brawResolutionScale [("braw.decode_resolution", "1/4")] = some .Quarter := by
  decide

/-- Claim C2 counterexample: the cache key is
`device_type + crc32(device_name)`, and CRC-32 collides on distinct names —
`"plumless"` and `"buckeroo"` hash identically — so two lookups with those
two different names under the same device type share one cache entry: the
second lookup returns the device created for the first name and attempts no
creation, instead of yielding a second distinct entry. -/
theorem hw_cache_crc32_collision :
    ¬ ("plumless" = "buckeroo")
  ∧ cacheKey 2 (some "plumless") = cacheKey 2 (some "buckeroo")
  ∧ (((DevicesMap.empty.lookupOrCreate 2 (some "plumless") true).1).lookupOrCreate
        2 (some "buckeroo") true).2
      = (some ⟨2, some "plumless"⟩, false) := by
  refine ⟨by decide, by decide, by decide⟩

/-- Claim C2 as amended: two device-cache lookups with equal
(device_type, device_name) create the native context at most once — the
second lookup hits the cached entry under the key
`device_type + crc32(device_name)` (absent or empty name hashing to 0) and
attempts no creation; and two lookups with different names under the same
device type yield two distinct cached entries *provided the names' 32-bit
hashes differ* (CRC-32 collisions such as `"plumless"`/`"buckeroo"` share
one entry). -/
theorem hw_cache_dedup_and_distinct_hashes :
    deviceHash none = 0
  ∧ deviceHash (some "") = 0
  ∧ (∀ (devices : DevicesMap) (t : Nat) (name : Option String),
      ((devices.lookupOrCreate t name true).1.lookupOrCreate t name true).2
        = ((devices.lookupOrCreate t name true).2.1, false))
  ∧ (∀ (t : Nat) (n1 n2 : String),
      deviceHash (some n1) ≠ deviceHash (some n2) →
      cacheKey t (some n1) ≠ cacheKey t (some n2)
      ∧ ((((DevicesMap.empty.lookupOrCreate t (some n1) true).1).lookupOrCreate
            t (some n2) true).1 (cacheKey t (some n1)) = some ⟨t, some n1⟩
        ∧ (((DevicesMap.empty.lookupOrCreate t (some n1) true).1).lookupOrCreate
            t (some n2) true).1 (cacheKey t (some n2)) = some ⟨t, some n2⟩)) := by
  refine ⟨by decide, by decide, ?_, ?_⟩
  · intro devices t name
    unfold DevicesMap.lookupOrCreate
    cases hx : devices (cacheKey t name) with
    | some dev => simp [hx]
    | none => simp [hx]
  · intro t n1 n2 hne
    have hkey : cacheKey t (some n1) ≠ cacheKey t (some n2) := by
      intro h
      exact hne (Nat.add_left_cancel h)
    refine ⟨hkey, ?_, ?_⟩
    · unfold DevicesMap.lookupOrCreate DevicesMap.empty
      simp [hkey, Ne.symm hkey]
    · unfold DevicesMap.lookupOrCreate DevicesMap.empty
      simp [hkey, Ne.symm hkey]

/-- Claim C2 witness: concrete distinct-hash names under device type 0. -/
theorem hw_cache_dedup_and_distinct_hashes_witness :
    deviceHash (some "a") ≠ deviceHash (some "b")
  ∧ (cacheKey 0 (some "a") ≠ cacheKey 0 (some "b")
    ∧ ((((DevicesMap.empty.lookupOrCreate 0 (some "a") true).1).lookupOrCreate
          0 (some "b") true).1 (cacheKey 0 (some "a")) = some ⟨0, some "a"⟩
      ∧ (((DevicesMap.empty.lookupOrCreate 0 (some "a") true).1).lookupOrCreate
          0 (some "b") true).1 (cacheKey 0 (some "b")) = some ⟨0, some "b"⟩)) :=
  ⟨by decide, hw_cache_dedup_and_distinct_hashes.2.2.2 0 "a" "b" (by decide)⟩

/-- Claim C4: for the index-addressable backends (BRAW and R3D), `seek(ts)`
sets the cursor to `round(ts * frame_rate / 1_000_000)` clamped to
`[0, frame_count - 1]` (for a nonempty clip the code's `.min(..).max(0)`
equals the clamp) and returns `Ok(true)`; and `seek(0)` followed by
`next_frame` decodes frame index 0. -/
theorem indexed_seek_formula_and_zero
    (bst : BrawDecoderState) (rst : R3dDecoderState) (ts : ℤ)
    (hb : 1 ≤ bst.frame_count) (hr : 1 ≤ rst.frame_count) :
      (((bst.seek ts).1.current_frame : ℤ)
        = max 0 (min (rustRound ((ts : ℚ) * bst.frame_rate / 1000000))
            ((bst.frame_count : ℤ) - 1))
      ∧ (bst.seek ts).2 = true
      ∧ ((bst.seek 0).1.nextFrame).2 = some 0)
    ∧ (((rst.seek ts).1.current_frame : ℤ)
        = max 0 (min (rustRound ((ts : ℚ) * rst.frame_rate / 1000000))
            ((rst.frame_count : ℤ) - 1))
      ∧ (rst.seek ts).2 = true
      ∧ ((rst.seek 0).1.nextFrame).2 = some 0) := by
  have hround0 : ∀ q : ℚ, rustRound ((0 : ℤ) * q / 1000000) = 0 := by
    intro q
    unfold rustRound
    norm_num
  have htarget0 : ∀ (q : ℚ) (n : ℕ), 1 ≤ n → seekTargetFrame q n 0 = 0 := by
    intro q n hn
    unfold seekTargetFrame
    rw [hround0 q]
    have h1 : (0 : ℤ) ≤ (n : ℤ) - 1 := by
      omega
    rw [min_eq_left h1, max_eq_right le_rfl]
  refine ⟨⟨?_, rfl, ?_⟩, ⟨?_, rfl, ?_⟩⟩
  · show ((seekTargetFrame bst.frame_rate bst.frame_count ts).toNat : ℤ) = _
    rw [seekTargetFrame, max_comm]
    exact Int.toNat_of_nonneg (le_max_left 0 _)
  · show (BrawDecoderState.nextFrame _).2 = some 0
    rw [BrawDecoderState.nextFrame]
    have hcur : (bst.seek 0).1.current_frame = 0 := by
      show (seekTargetFrame bst.frame_rate bst.frame_count 0).toNat = 0
      rw [htarget0 bst.frame_rate bst.frame_count hb]
      rfl
    rw [hcur]
    have hne : ¬ (bst.seek 0).1.frame_count ≤ 0 := by
      show ¬ bst.frame_count ≤ 0
      omega
    rw [if_neg hne]
  · show ((seekTargetFrame rst.frame_rate rst.frame_count ts).toNat : ℤ) = _
    rw [seekTargetFrame, max_comm]
    exact Int.toNat_of_nonneg (le_max_left 0 _)
  · show (R3dDecoderState.nextFrame _).2 = some 0
    rw [R3dDecoderState.nextFrame]
    have hcur : (rst.seek 0).1.current_frame = 0 := by
      show (seekTargetFrame rst.frame_rate rst.frame_count 0).toNat = 0
      rw [htarget0 rst.frame_rate rst.frame_count hr]
      rfl
    rw [hcur]
    have hne : ¬ (rst.seek 0).1.frame_count ≤ 0 := by
      show ¬ rst.frame_count ≤ 0
      omega
    rw [if_neg hne]

/-- Claim C4 witness: a 10-frame 30fps clip, seeking to half a second. -/
theorem indexed_seek_formula_and_zero_witness :
    1 ≤ (BrawDecoderState.mk 30 10 3).frame_count
  ∧ 1 ≤ (R3dDecoderState.mk 30 10 3).frame_count
  ∧ ((((BrawDecoderState.mk 30 10 3).seek 500000).1.current_frame : ℤ)
        = max 0 (min (rustRound (((500000 : ℤ) : ℚ) * (BrawDecoderState.mk 30 10 3).frame_rate / 1000000))
            (((BrawDecoderState.mk 30 10 3).frame_count : ℤ) - 1))
      ∧ (((BrawDecoderState.mk 30 10 3).seek 500000).2 = true)
      ∧ (((BrawDecoderState.mk 30 10 3).seek 0).1.nextFrame).2 = some 0) :=
  ⟨by decide, by decide,
    (indexed_seek_formula_and_zero (BrawDecoderState.mk 30 10 3)
      (R3dDecoderState.mk 30 10 3) 500000 (by decide) (by decide)).1⟩

end GpuVideo
